import Mathlib

/-!
Verification development for the purl probing tool.

The Go sources are embedded shallowly:
  * `internal/target` (ParseTarget, isIPAddress)   — target normalizer
  * `internal/protocol` (DetectProtocol, probeProtocol, probeProtocolWithTimeout,
    constructURL, mapProbeError, contains)          — protocol prober / classifier
  * `internal/transport` (NewTransport, ApplyTimeouts) — trust policy resolver
  * `internal/errors`  (error taxonomy, MapErrorToExitCode)
  * `cmd` main `run`   — outer workflow (resource-trace model)

The Go standard library pieces the target normalizer leans on (`net/url.Parse`,
`net.SplitHostPort`, `net.ParseIP`) are modelled from the Go stdlib sources,
restricted to the behaviour those call sites exercise.  Wall-clock time and
real network I/O are outside the embedding: the request dispatcher is an
oracle parameter, and durations are `Int` nanoseconds exactly as Go's
`time.Duration`.
-/

namespace Purl

/-! ## Basic list/char utilities (Go `strings` / byte-scanning helpers) -/

/-- Cut a list at the first occurrence of `sep`: `some (before, after)` with
`sep` removed, or `none` when `sep` does not occur.  This is the workhorse
behind Go's `strings.Index`-based splits. -/
def cutFirst (sep : Char) : List Char → Option (List Char × List Char)
  | [] => none
  | c :: cs =>
    if c = sep then some ([], cs)
    else match cutFirst sep cs with
      | none => none
      | some (a, b) => some (c :: a, b)

/-- Go `net/url`'s `split(s, sep, cutc=true)`: split at the first `sep`,
dropping the separator; `(s, "")` when absent. -/
def splitCut (l : List Char) (sep : Char) : List Char × List Char :=
  match cutFirst sep l with
  | none => (l, [])
  | some (a, b) => (a, b)

/-- Go `net/url`'s `split(s, sep, cutc=false)`: split at the first `sep`,
keeping the separator on the right part. -/
def splitKeep (l : List Char) (sep : Char) : List Char × List Char :=
  match cutFirst sep l with
  | none => (l, [])
  | some (a, b) => (a, sep :: b)

/-- Index of the last occurrence of `c` (Go `strings.LastIndexByte`). -/
def lastIndexOf (l : List Char) (c : Char) : Option Nat :=
  match l.reverse.findIdx? (fun x => x = c) with
  | none => none
  | some i => some (l.length - 1 - i)

/-- Split a list on every occurrence of `c` (Go `strings.Split`). -/
def splitOnChar (c : Char) : List Char → List (List Char)
  | [] => [[]]
  | x :: xs =>
    if x = c then [] :: splitOnChar c xs
    else match splitOnChar c xs with
      | [] => [[x]]
      | h :: t => (x :: h) :: t

/-- Go `strings.TrimPrefix(l, [c])` on char lists (single-char pattern). -/
def trimLeadChar (c : Char) (l : List Char) : List Char :=
  match l with
  | [] => []
  | x :: xs => if x = c then xs else x :: xs

/-- Go `strings.TrimSuffix(l, [c])` on char lists (single-char pattern). -/
def trimTrailChar (c : Char) (l : List Char) : List Char :=
  match l.getLast? with
  | none => l
  | some x => if x = c then l.dropLast else l

def isDigitChar (c : Char) : Bool := ('0' ≤ c) && (c ≤ '9')

def isHexChar (c : Char) : Bool :=
  isDigitChar c || (('a' ≤ c) && (c ≤ 'f')) || (('A' ≤ c) && (c ≤ 'F'))

def hexVal (c : Char) : Nat :=
  if ('0' ≤ c) && (c ≤ '9') then c.toNat - 48
  else if ('a' ≤ c) && (c ≤ 'f') then c.toNat - 87
  else if ('A' ≤ c) && (c ≤ 'F') then c.toNat - 55
  else 0

/-- ASCII lower-casing of one char.  Go `strings.ToLower` restricted to ASCII;
URL schemes accepted by `getScheme` are all ASCII, so this is exact there. -/
def lowerAscii (c : Char) : Char :=
  if ('A' ≤ c) && (c ≤ 'Z') then Char.ofNat (c.toNat + 32) else c

/-- ASCII control byte test, Go `net/url.stringContainsCTLByte`'s predicate. -/
def isCtl (c : Char) : Bool := c.toNat < 0x20 || c.toNat == 0x7f

/-! ## Model of Go `net/url` parsing, as exercised by `target.ParseTarget` -/

/-- Result of Go `url.Parse`: the `url.URL` fields the program reads.
`opq` embeds the Go field `URL.Opaque`. -/
structure GoURL where
  scheme : String := ""
  opq : String := ""
  user : Option String := none
  host : String := ""
  path : String := ""
  rawQuery : String := ""
  fragment : String := ""
  forceQuery : Bool := false
deriving DecidableEq

def isSchemeHead (c : Char) : Bool :=
  (('a' ≤ c) && (c ≤ 'z')) || (('A' ≤ c) && (c ≤ 'Z'))

def isSchemeChar (c : Char) : Bool :=
  isSchemeHead c || isDigitChar c || c = '+' || c = '-' || c = '.'

/-- Go `net/url.getScheme`: scan a leading `scheme:`; `(scheme, rest)` on a
colon after at least one scheme char starting with a letter, no-scheme
`([], l)` on any other terminator, and an error when the colon is first. -/
def getScheme (l : List Char) : Except String (List Char × List Char) :=
  match l with
  | [] => .ok ([], [])
  | c :: _ =>
    if c = ':' then .error "missing protocol scheme"
    else if !(isSchemeHead c) then .ok ([], l)
    else
      let pre := l.takeWhile isSchemeChar
      match l.drop pre.length with
      | ':' :: r => .ok (pre, r)
      | _ => .ok ([], l)

/-- Go `net/url.validOptionalPort`: empty, or `:` followed by digits only. -/
def validOptionalPort (p : List Char) : Bool :=
  match p with
  | [] => true
  | ':' :: rest => rest.all isDigitChar
  | _ => false

/-- Characters that need no escaping in a host component
(negation of Go `net/url.shouldEscape(c, encodeHost)` for ASCII `c`). -/
def hostSafeChar (c : Char) : Bool :=
  (('a' ≤ c) && (c ≤ 'z')) || (('A' ≤ c) && (c ≤ 'Z')) || isDigitChar c ||
  c = '-' || c = '_' || c = '.' || c = '~' ||
  c = '!' || c = '$' || c = '&' || c = Char.ofNat 39 || c = '(' || c = ')' ||
  c = '*' || c = '+' || c = ',' || c = ';' || c = '=' ||
  c = ':' || c = '[' || c = ']' || c = '<' || c = '>' || c = '"'

/-- Go `net/url.unescape(s, encodeHost)`: validate and decode percent escapes
(escapes below `0x80` other than `%25` are rejected), and reject ASCII bytes
that would need escaping in a host. -/
def unescapeHost : List Char → Option (List Char)
  | [] => some []
  | '%' :: a :: b :: rest =>
    if isHexChar a && isHexChar b then
      if hexVal a < 8 && !(a = '2' && b = '5') then none
      else (unescapeHost rest).map (fun r => Char.ofNat (hexVal a * 16 + hexVal b) :: r)
    else none
  | '%' :: _ => none
  | c :: rest =>
    if c.toNat < 0x80 && !(hostSafeChar c) then none
    else (unescapeHost rest).map (fun r => c :: r)

/-- Go `net/url.unescape` in a non-host mode (path, fragment, userinfo):
validate and decode percent escapes, leaving other characters alone. -/
def unescapeDec : List Char → Option (List Char)
  | [] => some []
  | '%' :: a :: b :: rest =>
    if isHexChar a && isHexChar b then
      (unescapeDec rest).map (fun r => Char.ofNat (hexVal a * 16 + hexVal b) :: r)
    else none
  | '%' :: _ => none
  | c :: rest => (unescapeDec rest).map (fun r => c :: r)

/-- Go `net/url.parseHost`: bracketed IPv6 forms require a `]` and a valid
optional port after it; otherwise a last colon must start a valid port; the
whole host (port included) is then unescaped/validated. -/
def parseHost (l : List Char) : Except String (List Char) :=
  let finish : Except String (List Char) :=
    match unescapeHost l with
    | none => .error "invalid host"
    | some h => .ok h
  if l.head? = some '[' then
    match lastIndexOf l ']' with
    | none => .error "missing right bracket in host"
    | some i =>
      if validOptionalPort (l.drop (i + 1)) then finish
      else .error "invalid port after host"
  else
    match lastIndexOf l ':' with
    | none => finish
    | some i =>
      if validOptionalPort (l.drop i) then finish
      else .error "invalid port after host"

/-- Characters Go `net/url.validUserinfo` accepts. -/
def userinfoSafeChar (c : Char) : Bool :=
  (('a' ≤ c) && (c ≤ 'z')) || (('A' ≤ c) && (c ≤ 'Z')) || isDigitChar c ||
  c = '-' || c = '.' || c = '_' || c = ':' || c = '~' ||
  c = '!' || c = '$' || c = '&' || c = Char.ofNat 39 || c = '(' || c = ')' ||
  c = '*' || c = '+' || c = ',' || c = ';' || c = '=' || c = '%' || c = '@'

/-- Go `net/url.parseAuthority`: optional userinfo before the last `@`,
then the host. -/
def parseAuthority (authority : List Char) : Except String (Option String × String) :=
  match lastIndexOf authority '@' with
  | none =>
    match parseHost authority with
    | .error e => .error e
    | .ok h => .ok (none, String.mk h)
  | some i =>
    match parseHost (authority.drop (i + 1)) with
    | .error e => .error e
    | .ok h =>
      let userinfo := authority.take i
      if !(userinfo.all userinfoSafeChar) then .error "invalid userinfo"
      else match unescapeDec userinfo with
        | none => .error "invalid userinfo escape"
        | some u => .ok (some (String.mk u), String.mk h)

/-- Go `net/url.parse`'s `ForceQuery` / `RawQuery` handling: a single trailing
`?` sets `forceQuery`; otherwise split at the first `?`. -/
def queryCut (rest0 : List Char) : List Char × List Char × Bool :=
  if rest0.getLast? = some '?' && (cutFirst '?' rest0.dropLast).isNone then
    (rest0.dropLast, [], true)
  else
    match cutFirst '?' rest0 with
    | none => (rest0, [], false)
    | some (a, b) => (a, b, false)

/-- Go `url.setPath` followed by assembling the URL value: decodes the raw
path, rejecting invalid escapes. -/
def finishURL (scheme : String) (user : Option String) (host : String)
    (rawPath : List Char) (rawQuery : List Char) (fq : Bool) : Except String GoURL :=
  match unescapeDec rawPath with
  | none => .error "invalid URL escape in path"
  | some p =>
    .ok { scheme := scheme, user := user, host := host, path := String.mk p,
          rawQuery := String.mk rawQuery, forceQuery := fq }

/-- First path segment, Go `strings.Cut(rest, "/")`'s left part. -/
def firstSeg (l : List Char) : List Char :=
  match cutFirst '/' l with
  | none => l
  | some (a, _) => a

/-- Core of Go `net/url.parse(rawURL, viaRequest=false)` after the scheme
has been extracted and lower-cased and the query split off: opaque/rootless
case, authority parsing, path decoding. -/
def afterQuery (scheme : String) (rest rawQuery : List Char) (fq : Bool) :
    Except String GoURL :=
  if rest.head? = some '/' then
    if (scheme ≠ "" ∨ ¬(rest.take 3 = ['/', '/', '/'])) ∧ rest.take 2 = ['/', '/'] then
      match parseAuthority (splitKeep (rest.drop 2) '/').1 with
      | .error e => .error e
      | .ok (user, host) =>
        finishURL scheme user host (splitKeep (rest.drop 2) '/').2 rawQuery fq
    else finishURL scheme none "" rest rawQuery fq
  else
    if scheme ≠ "" then
      .ok { scheme := scheme, opq := String.mk rest,
            rawQuery := String.mk rawQuery, forceQuery := fq }
    else
      if (cutFirst ':' (firstSeg rest)).isSome then
        .error "first path segment in URL cannot contain colon"
      else finishURL scheme none "" rest rawQuery fq

/-- `afterQuery` applied to the query split of the post-scheme rest. -/
def afterScheme (scheme : String) (rest0 : List Char) : Except String GoURL :=
  afterQuery scheme (queryCut rest0).1 (queryCut rest0).2.1 (queryCut rest0).2.2

/-- Go `net/url.parse(u, viaRequest=false)` on the fragment-less part:
control-byte check, the `*` special case, scheme extraction and lowering. -/
def parseNoFrag (u : List Char) : Except String GoURL :=
  if u.any isCtl then .error "invalid control character in URL"
  else if u = ['*'] then .ok { scheme := "", path := "*" }
  else
    match getScheme u with
    | .error e => .error e
    | .ok (sch, rest0) => afterScheme (String.mk (sch.map lowerAscii)) rest0

/-- Go `net/url.Parse` on a char list: split off the fragment, parse the rest,
then decode/attach the fragment. -/
def urlParseL (l : List Char) : Except String GoURL :=
  match parseNoFrag (splitCut l '#').1 with
  | .error e => .error e
  | .ok url =>
    match unescapeDec (splitCut l '#').2 with
    | none => .error "invalid URL escape in fragment"
    | some f => .ok { url with fragment := String.mk f }

/-- Go `net/url.Parse`. -/
def urlParse (s : String) : Except String GoURL := urlParseL s.data

/-- Go `url.URL`'s internal `splitHostPort` (applied to the `Host` field by
`Hostname`/`Port`): strip a valid optional port at the last colon, then strip
one bracket pair. -/
def urlSplitHostPort (h : List Char) : List Char × List Char :=
  let hp : List Char × List Char :=
    match lastIndexOf h ':' with
    | none => (h, [])
    | some i => if validOptionalPort (h.drop i) then (h.take i, h.drop (i + 1)) else (h, [])
  let host := hp.1
  let host :=
    if host.head? = some '[' && host.getLast? = some ']' then (host.drop 1).dropLast
    else host
  (host, hp.2)

/-- Go `url.URL.Hostname()`. -/
def GoURL.hostname (u : GoURL) : String := String.mk (urlSplitHostPort u.host.data).1

/-- Go `url.URL.portString` as returned by `url.URL.Port()`. -/
def GoURL.portOf (u : GoURL) : String := String.mk (urlSplitHostPort u.host.data).2

/-! ## Model of Go `net.ParseIP` / `net.SplitHostPort` -/

/-- One dotted-decimal IPv4 field, 0–255, Go ≥1.17 (leading zeros rejected). -/
def parseDecOctet (l : List Char) : Option Nat :=
  match l with
  | [] => none
  | ['0'] => some 0
  | c :: _ =>
    if c = '0' then none
    else if l.all isDigitChar && l.length ≤ 3 then
      let n := l.foldl (fun a d => a * 10 + (d.toNat - 48)) 0
      if n ≤ 255 then some n else none
    else none

/-- Dotted-decimal IPv4 literal test (Go `net.ParseIP`'s v4 path). -/
def parseIPv4 (l : List Char) : Bool :=
  match splitOnChar '.' l with
  | [a, b, c, d] =>
    (parseDecOctet a).isSome && (parseDecOctet b).isSome &&
    (parseDecOctet c).isSome && (parseDecOctet d).isSome
  | _ => false

def validV6Group (g : List Char) : Bool :=
  decide (1 ≤ g.length) && decide (g.length ≤ 4) && g.all isHexChar

/-- IPv6 literal test, modelled from Go `net.ParseIP`'s v6 path: groups of
1–4 hex digits separated by colons, at most one `::` compression, optional
trailing dotted IPv4, and 8 sixteen-bit units exactly when no compression
occurs (fewer than 8 required when `::` is present).  A leading or trailing
lone colon is rejected.  Zoned addresses are rejected like `net.ParseIP`. -/
def parseIPv6 (l : List Char) : Bool :=
  if (cutFirst ':' l).isNone then false
  else if l.head? = some ':' && !(l.take 2 == [':', ':']) then false
  else if l.getLast? = some ':' && !((l.drop (l.length - 2)) == [':', ':']) then false
  else
    let gs0 := splitOnChar ':' l
    -- a leading or trailing `::` yields two boundary empties; fold each pair
    -- into the single empty marking the compression
    let gs1 := match gs0 with
      | [] :: [] :: rest => [] :: rest
      | other => other
    let gs := match gs1.reverse with
      | [] :: [] :: rest => ([] :: rest).reverse
      | _ => gs1
    let emptyCount := (gs.filter List.isEmpty).length
    let lastV4 := match gs.getLast? with
      | some g => parseIPv4 g
      | none => false
    let groupsOk := gs.all fun g =>
      g.isEmpty || validV6Group g || (gs.getLast? == some g && parseIPv4 g)
    let units := (gs.filter (fun g => !g.isEmpty)).length + (if lastV4 then 1 else 0)
    if !groupsOk then false
    else if emptyCount = 0 then units = 8
    else emptyCount = 1 && units ≤ 7

/-- Go `net.ParseIP`: IPv4 dotted decimal, else IPv6 when a colon occurs. -/
def goParseIP (l : List Char) : Bool :=
  if parseIPv4 l then true else parseIPv6 l

/-- `target.isIPAddress` (src/unnamed/part_001 lines 117-121): strip one
trailing `]` and one leading `[`, then test with `net.ParseIP`. -/
def isIPAddress (host : String) : Bool :=
  goParseIP (trimLeadChar '[' (trimTrailChar ']' host.data))

/-- Go `net.SplitHostPort`: split `host:port` at the last colon, handling a
bracketed IPv6 host; the port digits are not validated here. -/
def goSplitHostPort (hp : List Char) : Except String (List Char × List Char) :=
  match lastIndexOf hp ':' with
  | none => .error "missing port in address"
  | some i =>
    if hp.head? = some '[' then
      match hp.findIdx? (fun c => c = ']') with
      | none => .error "missing right bracket in address"
      | some e =>
        if e + 1 = hp.length then .error "missing port in address"
        else if e + 1 = i then
          if (cutFirst '[' (hp.drop 1)).isSome then .error "unexpected left bracket"
          else if (cutFirst ']' (hp.drop (e + 1))).isSome then .error "unexpected right bracket"
          else .ok ((hp.take e).drop 1, hp.drop (i + 1))
        else if (hp.drop (e + 1)).head? = some ':' then .error "too many colons in address"
        else .error "missing port in address"
    else
      if (cutFirst ':' (hp.take i)).isSome then .error "too many colons in address"
      else if (cutFirst '[' hp).isSome then .error "unexpected left bracket"
      else if (cutFirst ']' hp).isSome then .error "unexpected right bracket"
      else .ok (hp.take i, hp.drop (i + 1))

/-! ## Error taxonomy (`internal/errors/errors.go`) -/

/-- The purl error types.  `cause` fields carry the underlying error's
rendered message.  `genericError` stands for any other Go error value
(hits `MapErrorToExitCode`'s default branch). -/
inductive PurlError where
  | urlParseError (input : String) (message : String)
  | connectionError (host : String) (port : String) (cause : String)
  | timeoutError (duration : Int) (phase : String)
  | tlsError (host : String) (cause : String)
  | unknownFlagError (flag : String)
  | noRouteError (host : String) (cause : String)
  | genericError (message : String)
deriving DecidableEq

/-- `errors.MapErrorToExitCode`, with `none` standing for a nil error. -/
def mapErrorToExitCode : Option PurlError → Int
  | none => 0
  | some (.urlParseError _ _) => 3
  | some (.unknownFlagError _) => 2
  | some (.noRouteError _ _) => 6
  | some (.connectionError _ _ _) => 7
  | some (.timeoutError _ _) => 28
  | some (.tlsError _ _) => 35
  | some (.genericError _) => 7

/-! ## Target normalizer (`internal/target`, src/unnamed/part_001) -/

/-- `target.ParsedTarget`: the normalized endpoint descriptor. -/
structure ParsedTarget where
  url : GoURL
  isIP : Bool
  hasExplicitProto : Bool
  originalInput : String
deriving DecidableEq

/-- Go `strings.Contains(input, "://")`. -/
def containsColonSlashSlash : List Char → Bool
  | ':' :: '/' :: '/' :: _ => true
  | _ :: rest => containsColonSlashSlash rest
  | [] => false

/-- The host:port segment of a scheme-less target: everything before the
first `/` (the whole input when there is none). -/
def hostPortOf (l : List Char) : List Char :=
  match cutFirst '/' l with
  | none => l
  | some (a, _) => a

/-- The path segment of a scheme-less target: from the first `/` on,
defaulting to `/`. -/
def pathOf (l : List Char) : List Char :=
  match cutFirst '/' l with
  | none => ['/']
  | some (_, b) => '/' :: b

/-- The host part after `net.SplitHostPort`, falling back to the whole
segment when splitting fails (no port). -/
def splitHost (hostPort : List Char) : List Char :=
  match goSplitHostPort hostPort with
  | .ok (h, _) => h
  | .error _ => hostPort

/-- The port part after `net.SplitHostPort`, empty when splitting fails. -/
def splitPort (hostPort : List Char) : List Char :=
  match goSplitHostPort hostPort with
  | .ok (_, p) => p
  | .error _ => []

/-- The working URL string `ParseTarget` builds for a scheme-less target:
`http://host[:port]path` (Go's `fmt.Sprintf` at src/unnamed/part_001 lines
96-101). -/
def rawURLOf (l : List Char) : List Char :=
  ['h', 't', 't', 'p', ':', '/', '/'] ++ splitHost (hostPortOf l) ++
    (if splitPort (hostPortOf l) ≠ [] then ':' :: splitPort (hostPortOf l) else []) ++
    pathOf l

/-- `target.ParseTarget` (src/unnamed/part_001 lines 25-114): empty-input
check; explicit-scheme inputs go through `url.Parse` and must yield a host;
scheme-less inputs are split into host[:port] and path (path defaulting to
`/`), and re-parsed with a placeholder `http` scheme. -/
def parseTarget (input : String) : Except PurlError ParsedTarget :=
  if input = "" then .error (.urlParseError input "target cannot be empty")
  else if containsColonSlashSlash input.data then
    match urlParse input with
    | .error e => .error (.urlParseError input ("invalid URL: " ++ e))
    | .ok u =>
      if u.host = "" then .error (.urlParseError input "URL must contain a host")
      else .ok ⟨u, isIPAddress u.hostname, true, input⟩
  else
    if splitHost (hostPortOf input.data) = [] then
      .error (.urlParseError input "target must contain a host")
    else
      match urlParseL (rawURLOf input.data) with
      | .error e => .error (.urlParseError input ("invalid target format: " ++ e))
      | .ok u =>
        .ok ⟨u, isIPAddress (String.mk (splitHost (hostPortOf input.data))), false, input⟩

/-! ## CLI options (`internal/cli/options.go`), restricted to the fields the
probing/transport core reads.  Durations are `Int` nanoseconds like Go's
`time.Duration`. -/

structure Options where
  target : String := ""
  proto : String := ""
  insecure : Bool := false
  caCert : String := ""
  cert : String := ""
  key : String := ""
  strictSSL : Bool := false
  timeout : Int := 0
  connectTimeout : Int := 0
deriving DecidableEq

/-- One Go `time.Second` in `time.Duration` units (nanoseconds). -/
def second : Int := 1000000000

/-- `transport.ApplyTimeouts` (src/unnamed/part_003 lines 113-121): the
configured timeout when positive, else the 10-second default. -/
def applyTimeouts (opts : Options) : Int :=
  if 0 < opts.timeout then opts.timeout else 10 * second

/-! ## Result classifier (`internal/protocol`, src/unnamed/part_002) -/

/-- A Go error value as `mapProbeError` inspects it: whether it implements
`interface{ Timeout() bool }` returning true, and its `Error()` text. -/
structure GoNetError where
  isTimeout : Bool
  msg : String
deriving DecidableEq

/-- `protocol.contains` (src/unnamed/part_002 lines 177-180), verbatim: the
Go body is
`len(s) >= len(substr) && (s == substr || len(substr) == 0 || (len(s) > 0 && len(substr) > 0))`
— it compares only lengths, despite its doc comment claiming a substring
test. -/
def containsGo (s substr : String) : Bool :=
  decide (substr.utf8ByteSize ≤ s.utf8ByteSize) &&
    (s == substr || substr.utf8ByteSize == 0 ||
      (decide (0 < s.utf8ByteSize) && decide (0 < substr.utf8ByteSize)))

/-- `protocol.mapProbeError` (src/unnamed/part_002 lines 127-175): timeout
check first, then the `contains`-based rules inside the non-empty-host block,
then the catch-all connection error.  `parsedTarget = none` models a nil
pointer (the nil-URL sub-check never fires in this program, since
`ParseTarget` always sets `URL`). -/
def mapProbeError (err : Option GoNetError) (parsedTarget : Option ParsedTarget) :
    Option PurlError :=
  match err with
  | none => none
  | some e =>
    if e.isTimeout then some (.timeoutError 0 "request")
    else
      let hostRule : Option PurlError :=
        match parsedTarget with
        | none => none
        | some pt =>
          let host := pt.url.hostname
          if host ≠ "" then
            if containsGo e.msg "connection refused" then
              some (.connectionError host pt.url.portOf e.msg)
            else if containsGo e.msg "no such host" || containsGo e.msg "name resolution" then
              some (.noRouteError host e.msg)
            else if containsGo e.msg "certificate" || containsGo e.msg "tls" ||
                containsGo e.msg "ssl" then
              some (.tlsError host e.msg)
            else none
          else none
      match hostRule with
      | some pe => some pe
      | none => some (.connectionError "unknown" "unknown" e.msg)

/-! ## Protocol prober (`internal/protocol`, src/unnamed/part_002)

One probe attempt's interaction with the outside world — transport
construction, request construction and `client.Do` — is an oracle
`dispatch : String → Int → NetOutcome` from (scheme, timeout) to the
attempt's low-level outcome.  A successful response is identified by an
abstract handle (its body/connection); the events of an attempt record
handle acquisition and release, letting resource discipline be stated. -/

/-- Low-level outcome of one dispatched probe attempt. -/
inductive NetOutcome where
  /-- `transport.NewTransport` returned an error. -/
  | transportErr (e : PurlError)
  /-- `http.NewRequestWithContext` returned an error. -/
  | requestErr (e : PurlError)
  /-- `client.Do` returned a transport-level error. -/
  | doErr (e : GoNetError)
  /-- `client.Do` returned a response: status code plus body handle. -/
  | response (status : Int) (handle : Nat)
deriving DecidableEq

/-- Resource events of an attempt: acquiring and closing a response
body/connection handle. -/
inductive ProbeEvent where
  | acquire (handle : Nat)
  | close (handle : Nat)
deriving DecidableEq

/-- `protocol.ProbeResult` (src/unnamed/part_002 lines 16-22); the response
handle stands for the `*http.Response`; the wall-clock `Duration` field is
outside the embedding. -/
structure ProbeResult where
  protocol : String
  statusCode : Int := 0
  response : Option Nat := none
  error : Option PurlError := none
deriving DecidableEq

/-- Instrumentation record of one `probeProtocolWithTimeout` invocation. -/
structure Attempt where
  url : GoURL
  timeout : Int
  events : List ProbeEvent
deriving DecidableEq

/-- `protocol.constructURL` (src/unnamed/part_002 lines 119-124): copy the
parsed URL and substitute the scheme. -/
def constructURL (t : ParsedTarget) (proto : String) : GoURL :=
  { t.url with scheme := proto }

/-- The `ProbeResult` built by `probeProtocolWithTimeout`
(src/unnamed/part_002 lines 61-116) from the dispatch outcome: transport
and request-construction errors are stored raw, `client.Do` errors go
through `mapProbeError`, and a response stores handle and status code. -/
def probeOutcome (o : NetOutcome) (t : ParsedTarget) (proto : String) : ProbeResult :=
  match o with
  | .transportErr e => { protocol := proto, error := some e }
  | .requestErr e => { protocol := proto, error := some e }
  | .doErr e => { protocol := proto, error := mapProbeError (some e) (some t) }
  | .response st h => { protocol := proto, statusCode := st, response := some h }

/-- Resource events of one attempt.  The source of
`probeProtocolWithTimeout` contains no `Close` call: a successful probe's
response body is acquired and never released within the attempt. -/
def probeEvents (o : NetOutcome) : List ProbeEvent :=
  match o with
  | .response _ h => [ProbeEvent.acquire h]
  | _ => []

/-- `protocol.probeProtocolWithTimeout` (src/unnamed/part_002 lines 61-116),
returning the probe result together with its instrumentation record. -/
def probeProtocolWithTimeout (dispatch : String → Int → NetOutcome)
    (t : ParsedTarget) (_opts : Options) (proto : String) (timeout : Int) :
    ProbeResult × Attempt :=
  (probeOutcome (dispatch proto timeout) t proto,
   ⟨constructURL t proto, timeout, probeEvents (dispatch proto timeout)⟩)

/-- `protocol.probeProtocol` (src/unnamed/part_002 lines 55-58): probe with
the default timeout from the options. -/
def probeProtocol (dispatch : String → Int → NetOutcome)
    (t : ParsedTarget) (opts : Options) (proto : String) : ProbeResult × Attempt :=
  probeProtocolWithTimeout dispatch t opts proto (applyTimeouts opts)

/-- What `protocol.DetectProtocol` hands back: the Go pair
`(*ProbeResult, error)` plus the instrumented list of probe attempts made. -/
structure DetectOutcome where
  result : ProbeResult
  goErr : Option PurlError
  attempts : List Attempt
deriving DecidableEq

/-- `protocol.DetectProtocol` (src/unnamed/part_002 lines 27-51).  Manual
mode (`Proto` neither empty nor `"auto"`): one `probeProtocol` call, the Go
error mirroring the result's error.  Auto mode: HTTP with a 3s timeout; on
no error and status in `[200, 400)` that is final; otherwise HTTPS with a
7s timeout is final; the Go error is nil on every auto path. -/
def detectProtocol (dispatch : String → Int → NetOutcome)
    (t : ParsedTarget) (opts : Options) : DetectOutcome :=
  if opts.proto ≠ "" ∧ opts.proto ≠ "auto" then
    ⟨(probeProtocol dispatch t opts opts.proto).1,
     (probeProtocol dispatch t opts opts.proto).1.error,
     [(probeProtocol dispatch t opts opts.proto).2]⟩
  else
    if (probeProtocolWithTimeout dispatch t opts "http" (3 * second)).1.error = none ∧
        200 ≤ (probeProtocolWithTimeout dispatch t opts "http" (3 * second)).1.statusCode ∧
        (probeProtocolWithTimeout dispatch t opts "http" (3 * second)).1.statusCode < 400 then
      ⟨(probeProtocolWithTimeout dispatch t opts "http" (3 * second)).1, none,
       [(probeProtocolWithTimeout dispatch t opts "http" (3 * second)).2]⟩
    else
      ⟨(probeProtocolWithTimeout dispatch t opts "https" (7 * second)).1, none,
       [(probeProtocolWithTimeout dispatch t opts "http" (3 * second)).2,
        (probeProtocolWithTimeout dispatch t opts "https" (7 * second)).2]⟩

/-! ## Trust policy resolver (`internal/transport`, src/unnamed/part_003) -/

/-- A loaded client certificate/key pair (`tls.Certificate`). -/
structure KeyPair where
  certFile : String
  keyFile : String
deriving DecidableEq

/-- The `tls.Config` fields `NewTransport` writes.  `rootCAs` carries the
PEM contents added to the pool (`none` = system roots). -/
structure TLSConfig where
  insecureSkipVerify : Bool := false
  rootCAs : Option String := none
  certificates : List KeyPair := []
deriving DecidableEq

/-- The `http.Transport` fields `NewTransport` configures. -/
structure TransportModel where
  dialTimeout : Int
  tlsHandshakeTimeout : Int
  tlsClientConfig : TLSConfig
deriving DecidableEq

/-- Oracle for the file system and certificate loading used by
`NewTransport`: `os.ReadFile`, `x509.CertPool.AppendCertsFromPEM`, and
`tls.LoadX509KeyPair`. -/
structure SysOracle where
  readFile : String → Except String String
  appendCertsFromPEM : String → Bool
  loadX509KeyPair : String → String → Except String KeyPair

/-- The `InsecureSkipVerify` decision of `NewTransport`
(src/unnamed/part_003 lines 31-38): skip when the target is an IP literal
without `--strict-ssl`, else when `--insecure`. -/
def skipVerify (opts : Options) (t : ParsedTarget) : Bool :=
  if t.isIP && !opts.strictSSL then true
  else if opts.insecure then true
  else false

/-- The CA-certificate block of `NewTransport` (src/unnamed/part_003 lines
47-65): when `--cacert` is set, read the file and parse it into the root
pool; either failure is a `TLSError`. -/
def caStep (sys : SysOracle) (opts : Options) (host : String) :
    Except PurlError (Option String) :=
  if opts.caCert ≠ "" then
    match sys.readFile opts.caCert with
    | .error m => .error (.tlsError host ("failed to read CA certificate: " ++ m))
    | .ok content =>
      if sys.appendCertsFromPEM content then .ok (some content)
      else .error (.tlsError host "failed to parse CA certificate")
  else .ok none

/-- The client-certificate block of `NewTransport` (src/unnamed/part_003
lines 68-88): both of `--cert`/`--key` load the pair, exactly one of them
is a `TLSError`, neither is fine. -/
def certStep (sys : SysOracle) (opts : Options) (host : String) :
    Except PurlError (List KeyPair) :=
  if opts.cert ≠ "" ∧ opts.key ≠ "" then
    match sys.loadX509KeyPair opts.cert opts.key with
    | .error m => .error (.tlsError host ("failed to load client certificate: " ++ m))
    | .ok kp => .ok [kp]
  else if opts.cert ≠ "" then .error (.tlsError host "--cert requires --key to be specified")
  else if opts.key ≠ "" then .error (.tlsError host "--key requires --cert to be specified")
  else .ok []

/-- `transport.NewTransport` (src/unnamed/part_003 lines 19-93): dial and
TLS-handshake timeouts from `ConnectTimeout`; the skip-verification
decision; then the CA block and the client-certificate block, in source
order (so a CA failure wins). -/
def newTransport (sys : SysOracle) (opts : Options) (t : ParsedTarget) :
    Except PurlError TransportModel :=
  match caStep sys opts t.url.host with
  | .error e => .error e
  | .ok roots =>
    match certStep sys opts t.url.host with
    | .error e => .error e
    | .ok certs =>
      .ok { dialTimeout := opts.connectTimeout,
            tlsHandshakeTimeout := opts.connectTimeout,
            tlsClientConfig :=
              { insecureSkipVerify := skipVerify opts t, rootCAs := roots,
                certificates := certs } }

/-- Does transport construction fail with a `TLSError`? -/
def isTLSErr : Except PurlError TransportModel → Bool
  | .error (.tlsError _ _) => true
  | _ => false

/-! ## Outer workflow `run` (cmd main, src/unnamed/part_004 lines 32-97),
as a resource-event trace: parse the target, detect the protocol, then (on
success) perform the real request, whose response body is the only handle
the workflow ever closes (`defer resp.Body.Close()`, line 83).  Probe
responses are carried in `ProbeResult.Response`/overwritten without a
`Close`. -/

def run (dispatch : String → Int → NetOutcome) (realOutcome : NetOutcome)
    (opts : Options) : Int × List ProbeEvent :=
  match parseTarget opts.target with
  | .error e => (mapErrorToExitCode (some e), [])
  | .ok t =>
    let d := detectProtocol dispatch t opts
    let probeEvts := (d.attempts.map Attempt.events).flatten
    match d.goErr with
    | some e => (mapErrorToExitCode (some e), probeEvts)
    | none =>
      match d.result.error with
      | some e => (mapErrorToExitCode (some e), probeEvts)
      | none =>
        match realOutcome with
        | .response _ h =>
          (0, probeEvts ++ [ProbeEvent.acquire h, ProbeEvent.close h])
        | .transportErr e => (mapErrorToExitCode (some e), probeEvts)
        | .requestErr e => (mapErrorToExitCode (some e), probeEvts)
        | .doErr e =>
          -- the real request's error is returned raw; `MapErrorToExitCode`
          -- hits its default branch on it
          (mapErrorToExitCode (some (.genericError e.msg)), probeEvts)

/-- The handles an event trace acquires. -/
def acquiredHandles (evts : List ProbeEvent) : List Nat :=
  evts.filterMap fun e => match e with
    | .acquire h => some h
    | .close _ => none

/-- The handles an event trace closes. -/
def closedHandles (evts : List ProbeEvent) : List Nat :=
  evts.filterMap fun e => match e with
    | .acquire _ => none
    | .close h => some h

/-! ## Spec-level properties of the prober -/

/-- Auto-mode contract of `DetectProtocol`: the HTTP attempt runs first with
a 3-second timeout; it is the final result exactly when it carries no error
and a status in `[200, 400)`; in every other case exactly one further HTTPS
attempt runs, with a 7-second timeout, and its outcome is final. -/
def autoProbeSpec (dispatch : String → Int → NetOutcome) (t : ParsedTarget)
    (opts : Options) : Prop :=
  (probeProtocolWithTimeout dispatch t opts "http" (3 * second)).2.url.scheme = "http" ∧
  (probeProtocolWithTimeout dispatch t opts "http" (3 * second)).2.timeout = 3 * second ∧
  (probeProtocolWithTimeout dispatch t opts "https" (7 * second)).2.url.scheme = "https" ∧
  (probeProtocolWithTimeout dispatch t opts "https" (7 * second)).2.timeout = 7 * second ∧
  (((probeProtocolWithTimeout dispatch t opts "http" (3 * second)).1.error = none ∧
      200 ≤ (probeProtocolWithTimeout dispatch t opts "http" (3 * second)).1.statusCode ∧
      (probeProtocolWithTimeout dispatch t opts "http" (3 * second)).1.statusCode < 400) →
    (detectProtocol dispatch t opts).attempts =
        [(probeProtocolWithTimeout dispatch t opts "http" (3 * second)).2] ∧
      (detectProtocol dispatch t opts).result =
        (probeProtocolWithTimeout dispatch t opts "http" (3 * second)).1) ∧
  (¬((probeProtocolWithTimeout dispatch t opts "http" (3 * second)).1.error = none ∧
      200 ≤ (probeProtocolWithTimeout dispatch t opts "http" (3 * second)).1.statusCode ∧
      (probeProtocolWithTimeout dispatch t opts "http" (3 * second)).1.statusCode < 400) →
    (detectProtocol dispatch t opts).attempts =
        [(probeProtocolWithTimeout dispatch t opts "http" (3 * second)).2,
         (probeProtocolWithTimeout dispatch t opts "https" (7 * second)).2] ∧
      (detectProtocol dispatch t opts).result =
        (probeProtocolWithTimeout dispatch t opts "https" (7 * second)).1)

/-- Manual-mode contract of `DetectProtocol`: exactly one attempt, with the
flag's scheme substituted into the endpoint's URL and the caller-level
timeout `ApplyTimeouts`, and that attempt's outcome is final. -/
def manualProbeSpec (dispatch : String → Int → NetOutcome) (t : ParsedTarget)
    (opts : Options) : Prop :=
  (detectProtocol dispatch t opts).attempts = [(probeProtocol dispatch t opts opts.proto).2] ∧
  (detectProtocol dispatch t opts).result = (probeProtocol dispatch t opts opts.proto).1 ∧
  (detectProtocol dispatch t opts).goErr = (probeProtocol dispatch t opts opts.proto).1.error ∧
  (probeProtocol dispatch t opts opts.proto).2.url.scheme = opts.proto ∧
  (probeProtocol dispatch t opts opts.proto).2.timeout = applyTimeouts opts ∧
  (0 < opts.timeout → applyTimeouts opts = opts.timeout)

/-! ## Fixture values used by witnesses and counterexamples -/

/-- A plain normalized endpoint for `example.com` (no explicit scheme). -/
def tPlain : ParsedTarget :=
  ⟨{ scheme := "http", host := "example.com", path := "/" }, false, false, "example.com"⟩

/-- An endpoint parsed from an explicit `https://` URL
(`hasExplicitProto = true`, URL scheme `https`). -/
def tExplicitHttps : ParsedTarget :=
  ⟨{ scheme := "https", host := "example.com", path := "/" }, false, true,
   "https://example.com/"⟩

/-- The value of `parseTarget "HTTP://example.com"`. -/
def tUpperScheme : ParsedTarget :=
  ⟨{ scheme := "http", host := "example.com", path := "" }, false, true,
   "HTTP://example.com"⟩

/-- The value of `parseTarget "http://example.com"`: note the empty path. -/
def tHttpNoPath : ParsedTarget :=
  ⟨{ scheme := "http", host := "example.com", path := "" }, false, true,
   "http://example.com"⟩

/-- The value of `parseTarget "example.com"`. -/
def tBare : ParsedTarget :=
  ⟨{ scheme := "http", host := "example.com", path := "/" }, false, false, "example.com"⟩

/-- Dispatcher where plain HTTP answers 500 and HTTPS answers 200. -/
def dHttp500 : String → Int → NetOutcome :=
  fun s _ => if s = "https" then .response 200 2 else .response 500 1

/-- Dispatcher where plain HTTP answers 404 and HTTPS answers 200. -/
def dHttp404 : String → Int → NetOutcome :=
  fun s _ => if s = "https" then .response 200 2 else .response 404 1

/-- Dispatcher where every attempt answers 200. -/
def dAllOk : String → Int → NetOutcome := fun _ _ => .response 200 5

/-- Dispatcher where every attempt fails with a connection-refused error. -/
def dAllRefused : String → Int → NetOutcome :=
  fun _ _ => .doErr ⟨false, "dial tcp 93.184.216.34:80: connect: connection refused"⟩

def optsAuto : Options := { target := "example.com", proto := "auto" }

def optsNoProto : Options := { target := "example.com" }

def optsManualHttp : Options :=
  { target := "example.com", proto := "http", timeout := 5 * second }

def optsManualHttps : Options := { target := "example.com", proto := "https" }

/-- Oracle where every file read, PEM parse and key-pair load succeeds. -/
def sysOk : SysOracle :=
  ⟨fun p => .ok ("PEM:" ++ p), fun _ => true, fun c k => .ok ⟨c, k⟩⟩

/-- Oracle where reading any file fails. -/
def sysReadFail : SysOracle :=
  ⟨fun _ => .error "no such file or directory", fun _ => true, fun c k => .ok ⟨c, k⟩⟩

/-- Oracle where files read fine but PEM parsing fails. -/
def sysParseFail : SysOracle :=
  ⟨fun p => .ok ("JUNK:" ++ p), fun _ => false, fun c k => .ok ⟨c, k⟩⟩

/-- An IP-literal endpoint. -/
def tIP : ParsedTarget :=
  ⟨{ scheme := "http", host := "10.0.0.1", path := "/" }, true, false, "10.0.0.1"⟩

/-- The transport built for `tIP` with default options and a trivial
oracle. -/
def trIP : TransportModel :=
  { dialTimeout := 0, tlsHandshakeTimeout := 0,
    tlsClientConfig := { insecureSkipVerify := true } }

def optsCA : Options := { target := "example.com", caCert := "ca.pem" }

def optsCertOnly : Options := { target := "example.com", cert := "c.pem" }

def optsKeyOnly : Options := { target := "example.com", key := "k.pem" }

def optsMTLS : Options := { target := "example.com", cert := "c.pem", key := "k.pem" }

/-- The transport built for `tPlain` under `optsMTLS` and `sysOk`. -/
def trMTLS : TransportModel :=
  { dialTimeout := 0, tlsHandshakeTimeout := 0,
    tlsClientConfig := { certificates := [⟨"c.pem", "k.pem"⟩] } }

/-! # Theorems -/

/-! ## List-scanning lemmas -/

theorem cutFirst_eq_none (c : Char) (l : List Char) (h : c ∉ l) : cutFirst c l = none := by
  induction l with
  | nil => rfl
  | cons x xs ih =>
    unfold cutFirst
    rw [if_neg (by rintro rfl; exact h (List.mem_cons_self x xs)),
      ih (fun hm => h (List.mem_cons_of_mem x hm))]

theorem cutFirst_append_none (c : Char) (a l : List Char) (ha : c ∉ a)
    (h : cutFirst c l = none) : cutFirst c (a ++ l) = none := by
  induction a with
  | nil => simpa
  | cons x xs ih =>
    rw [List.cons_append]
    unfold cutFirst
    rw [if_neg (by rintro rfl; exact ha (List.mem_cons_self x xs)),
      ih (fun hm => ha (List.mem_cons_of_mem x hm))]

theorem cutFirst_append_some (c : Char) (a l x y : List Char) (ha : c ∉ a)
    (h : cutFirst c l = some (x, y)) : cutFirst c (a ++ l) = some (a ++ x, y) := by
  induction a with
  | nil => simpa
  | cons d ds ih =>
    rw [List.cons_append]
    unfold cutFirst
    rw [if_neg (by rintro rfl; exact ha (List.mem_cons_self d ds)),
      ih (fun hm => ha (List.mem_cons_of_mem d hm))]
    rfl

theorem cutFirst_cons_self (c : Char) (l : List Char) : cutFirst c (c :: l) = some ([], l) := by
  unfold cutFirst
  rw [if_pos rfl]

theorem cutFirst_append_cons (c : Char) (a b : List Char) (ha : c ∉ a) :
    cutFirst c (a ++ c :: b) = some (a, b) := by
  have := cutFirst_append_some c a (c :: b) [] b ha (cutFirst_cons_self c b)
  simpa using this

theorem splitCut_of_notMem (l : List Char) (c : Char) (h : c ∉ l) : splitCut l c = (l, []) := by
  unfold splitCut
  rw [cutFirst_eq_none c l h]

theorem splitCut_append (c : Char) (a l : List Char) (ha : c ∉ a) :
    splitCut (a ++ l) c = (a ++ (splitCut l c).1, (splitCut l c).2) := by
  unfold splitCut
  cases hl : cutFirst c l with
  | none => rw [cutFirst_append_none c a l ha hl]
  | some p => rw [cutFirst_append_some c a l p.1 p.2 ha (by rw [hl])]

theorem getLast?_mem {α : Type} (l : List α) (a : α) (h : l.getLast? = some a) : a ∈ l := by
  obtain ⟨hne, heq⟩ := List.mem_getLast?_eq_getLast (show a ∈ l.getLast? from h)
  rw [heq]
  exact List.getLast_mem hne

theorem takeWhile_append_eq (p : Char → Bool) (a : List Char) (b : Char) (r : List Char)
    (ha : ∀ c ∈ a, p c = true) (hb : p b = false) :
    (a ++ b :: r).takeWhile p = a := by
  induction a with
  | nil => simp [List.takeWhile_cons, hb]
  | cons x xs ih =>
    rw [List.cons_append, List.takeWhile_cons, ha x (List.mem_cons_self x xs)]
    simp only [ite_true]
    rw [ih (fun c hc => ha c (List.mem_cons_of_mem x hc))]

/-! ## Lemmas on the `net/url` model -/

theorem getScheme_append (c : Char) (cs r : List Char)
    (h2 : ∀ d ∈ c :: cs, isSchemeChar d = true) (h3 : isSchemeHead c = true) :
    getScheme ((c :: cs) ++ ':' :: r) = .ok (c :: cs, r) := by
  have hcne : ¬(c = ':') := by
    rintro rfl
    exact absurd (h2 ':' (List.mem_cons_self ':' cs)) (by decide)
  have hpre : ((c :: cs) ++ ':' :: r).takeWhile isSchemeChar = c :: cs :=
    takeWhile_append_eq isSchemeChar (c :: cs) ':' r h2 (by decide)
  rw [List.cons_append]
  rw [List.cons_append] at hpre
  simp only [getScheme, if_neg hcne, h3, Bool.not_true, Bool.false_eq_true, if_false]
  rw [hpre]
  rw [List.length_cons, List.drop_succ_cons, List.drop_left]
  rfl

theorem queryCut_of_notMem (l : List Char) (h : '?' ∉ l) : queryCut l = (l, [], false) := by
  have hlast : ¬(l.getLast? = some '?') := fun hl => h (getLast?_mem l '?' hl)
  unfold queryCut
  rw [if_neg (by simp [hlast]), cutFirst_eq_none '?' l h]

theorem unescapeDec_slash_cons (l : List Char) :
    unescapeDec ('/' :: l) = (unescapeDec l).map (fun r => '/' :: r) := rfl

theorem unescapeDec_slash_shape (l p : List Char) (h : unescapeDec ('/' :: l) = some p) :
    p.head? = some '/' := by
  rw [unescapeDec_slash_cons] at h
  cases hl : unescapeDec l with
  | none => rw [hl] at h; cases h
  | some q => rw [hl] at h; cases h; rfl

theorem splitKeep_snd_shape (l : List Char) (c : Char) :
    (splitKeep l c).2 = [] ∨ (splitKeep l c).2.head? = some c := by
  unfold splitKeep
  cases h : cutFirst c l with
  | none => exact Or.inl rfl
  | some p => exact Or.inr rfl

theorem finishURL_inv (sch : String) (us : Option String) (h : String) (rp rq : List Char)
    (fq : Bool) (u : GoURL) (hok : finishURL sch us h rp rq fq = .ok u) :
    u.scheme = sch ∧ u.host = h ∧ unescapeDec rp = some u.path.data := by
  unfold finishURL at hok
  cases hp : unescapeDec rp with
  | none => rw [hp] at hok; cases hok
  | some p => rw [hp] at hok; cases hok; exact ⟨rfl, rfl, rfl⟩

theorem afterQuery_scheme (scheme : String) (rest rawQuery : List Char) (fq : Bool)
    (u : GoURL) (h : afterQuery scheme rest rawQuery fq = .ok u) : u.scheme = scheme := by
  unfold afterQuery at h
  by_cases h1 : rest.head? = some '/'
  · rw [if_pos h1] at h
    by_cases h2 : (scheme ≠ "" ∨ ¬(rest.take 3 = ['/', '/', '/'])) ∧ rest.take 2 = ['/', '/']
    · rw [if_pos h2] at h
      cases ha : parseAuthority (splitKeep (rest.drop 2) '/').1 with
      | error e => rw [ha] at h; cases h
      | ok p =>
        rw [ha] at h
        obtain ⟨us, host⟩ := p
        exact (finishURL_inv _ _ _ _ _ _ _ h).1
    · rw [if_neg h2] at h
      exact (finishURL_inv _ _ _ _ _ _ _ h).1
  · rw [if_neg h1] at h
    by_cases h2 : scheme ≠ ""
    · rw [if_pos h2] at h; cases h; rfl
    · rw [if_neg h2] at h
      by_cases h3 : (cutFirst ':' (firstSeg rest)).isSome = true
      · rw [if_pos h3] at h; cases h
      · rw [if_neg h3] at h
        exact (finishURL_inv _ _ _ _ _ _ _ h).1

theorem afterQuery_path_shape (scheme : String) (rest rawQuery : List Char) (fq : Bool)
    (u : GoURL) (h : afterQuery scheme rest rawQuery fq = .ok u)
    (hor : u.host ≠ "" ∨ scheme ≠ "") :
    u.path.data = [] ∨ u.path.data.head? = some '/' := by
  unfold afterQuery at h
  by_cases h1 : rest.head? = some '/'
  · rw [if_pos h1] at h
    by_cases h2 : (scheme ≠ "" ∨ ¬(rest.take 3 = ['/', '/', '/'])) ∧ rest.take 2 = ['/', '/']
    · rw [if_pos h2] at h
      cases ha : parseAuthority (splitKeep (rest.drop 2) '/').1 with
      | error e => rw [ha] at h; cases h
      | ok p =>
        rw [ha] at h
        obtain ⟨us, hst⟩ := p
        obtain ⟨-, -, hp⟩ := finishURL_inv _ _ _ _ _ _ _ h
        rcases splitKeep_snd_shape (rest.drop 2) '/' with hs | hs
        · rw [hs] at hp
          have hp2 : some ([] : List Char) = some u.path.data := hp
          left
          exact (Option.some.inj hp2).symm
        · cases hsk : (splitKeep (rest.drop 2) '/').2 with
          | nil => rw [hsk] at hs; cases hs
          | cons d tl =>
            rw [hsk] at hs hp
            cases hs
            exact Or.inr (unescapeDec_slash_shape tl _ hp)
    · rw [if_neg h2] at h
      obtain ⟨-, -, hp⟩ := finishURL_inv _ _ _ _ _ _ _ h
      cases hrest : rest with
      | nil => rw [hrest] at h1; cases h1
      | cons d tl =>
        rw [hrest] at h1 hp
        cases h1
        exact Or.inr (unescapeDec_slash_shape tl _ hp)
  · rw [if_neg h1] at h
    by_cases h2 : scheme ≠ ""
    · rw [if_pos h2] at h
      cases h
      exact Or.inl rfl
    · rw [if_neg h2] at h
      by_cases h3 : (cutFirst ':' (firstSeg rest)).isSome = true
      · rw [if_pos h3] at h; cases h
      · rw [if_neg h3] at h
        obtain ⟨-, hhost, -⟩ := finishURL_inv _ _ _ _ _ _ _ h
        rcases hor with hor | hor
        · exact absurd hhost hor
        · exact absurd h2 (fun _ => h2 hor)

theorem parseNoFrag_inv (l : List Char) (u : GoURL) (h : parseNoFrag l = .ok u) :
    (l = ['*'] ∧ u = { scheme := "", path := "*" }) ∨
    ∃ sch rest0, getScheme l = .ok (sch, rest0) ∧
      afterQuery (String.mk (sch.map lowerAscii)) (queryCut rest0).1
        (queryCut rest0).2.1 (queryCut rest0).2.2 = .ok u := by
  unfold parseNoFrag at h
  by_cases hctl : l.any isCtl = true
  · rw [if_pos hctl] at h; cases h
  · rw [if_neg hctl] at h
    by_cases hstar : l = ['*']
    · rw [if_pos hstar] at h
      cases h
      exact Or.inl ⟨hstar, rfl⟩
    · rw [if_neg hstar] at h
      cases hg : getScheme l with
      | error e => rw [hg] at h; cases h
      | ok p =>
        rw [hg] at h
        obtain ⟨sch, rest0⟩ := p
        exact Or.inr ⟨sch, rest0, rfl, h⟩

theorem urlParseL_inv (l : List Char) (u : GoURL) (h : urlParseL l = .ok u) :
    ∃ u0 f, parseNoFrag (splitCut l '#').1 = .ok u0 ∧
      unescapeDec (splitCut l '#').2 = some f ∧ u = { u0 with fragment := String.mk f } := by
  unfold urlParseL at h
  cases h0 : parseNoFrag (splitCut l '#').1 with
  | error e => rw [h0] at h; cases h
  | ok u0 =>
    rw [h0] at h
    cases hf : unescapeDec (splitCut l '#').2 with
    | none => rw [hf] at h; cases h
    | some f =>
      rw [hf] at h
      cases h
      exact ⟨u0, f, rfl, rfl, rfl⟩

theorem urlParseL_http_shape (r : List Char) (u : GoURL)
    (h : urlParseL (['h', 't', 't', 'p', ':', '/', '/'] ++ r) = .ok u) :
    u.path.data = [] ∨ u.path.data.head? = some '/' := by
  obtain ⟨u0, f, h0, hf, hu⟩ := urlParseL_inv _ _ h
  subst hu
  rw [splitCut_append '#' ['h', 't', 't', 'p', ':', '/', '/'] r (by decide)] at h0
  rcases parseNoFrag_inv _ _ h0 with ⟨hstar, hu0⟩ | ⟨sch, rest0, hg, hq⟩
  · exfalso
    have hmem : ':' ∈ (['*'] : List Char) := by
      rw [← hstar]
      exact List.mem_append_left _ (by decide)
    simp at hmem
  · have hg2 : getScheme (['h', 't', 't', 'p', ':', '/', '/'] ++ (splitCut r '#').1) =
        .ok (['h', 't', 't', 'p'], '/' :: '/' :: (splitCut r '#').1) :=
      getScheme_append 'h' ['t', 't', 'p'] ('/' :: '/' :: (splitCut r '#').1)
        (by decide) (by decide)
    rw [hg2] at hg
    injection hg with hg
    injection hg with hg1 hg2'
    subst hg1
    subst hg2'
    have hs := afterQuery_path_shape _ _ _ _ u0 hq (Or.inr (by decide))
    exact hs

theorem containsCSS_cons (c : Char) (l : List Char) (h : containsColonSlashSlash l = true) :
    containsColonSlashSlash (c :: l) = true := by
  rw [containsColonSlashSlash.eq_def]
  split
  · rfl
  · next x rest heq =>
    injection heq with h1 h2
    exact h2 ▸ h
  · next heq => cases heq

theorem containsCSS_append (a b : List Char) :
    containsColonSlashSlash (a ++ ':' :: '/' :: '/' :: b) = true := by
  induction a with
  | nil => rfl
  | cons c cs ih => exact containsCSS_cons c _ ih

theorem containsCSS_false_of_no_slash (l : List Char) (h : '/' ∉ l) :
    containsColonSlashSlash l = false := by
  induction l with
  | nil => rfl
  | cons c cs ih =>
    rw [containsColonSlashSlash.eq_def]
    split
    · next x heq =>
      exfalso
      apply h
      rw [heq]
      simp
    · next x rest heq =>
      injection heq with h1 h2
      subst h2
      exact ih (fun hm => h (List.mem_cons_of_mem c hm))
    · rfl

theorem goSplitHostPort_subset (hp h p : List Char) (hok : goSplitHostPort hp = .ok (h, p)) :
    (∀ c, c ∈ h → c ∈ hp) ∧ (∀ c, c ∈ p → c ∈ hp) := by
  unfold goSplitHostPort at hok
  cases hl : lastIndexOf hp ':' with
  | none => rw [hl] at hok; cases hok
  | some i =>
    simp only [hl] at hok
    by_cases hb : hp.head? = some '['
    · rw [if_pos hb] at hok
      cases he : hp.findIdx? (fun c => c = ']') with
      | none => simp only [he] at hok; cases hok
      | some e =>
        simp only [he] at hok
        by_cases h1 : e + 1 = hp.length
        · rw [if_pos h1] at hok; cases hok
        · rw [if_neg h1] at hok
          by_cases h2 : e + 1 = i
          · rw [if_pos h2] at hok
            by_cases h3 : (cutFirst '[' (hp.drop 1)).isSome = true
            · rw [if_pos h3] at hok; cases hok
            · rw [if_neg h3] at hok
              by_cases h4 : (cutFirst ']' (hp.drop (e + 1))).isSome = true
              · rw [if_pos h4] at hok; cases hok
              · rw [if_neg h4] at hok
                cases hok
                exact ⟨fun c hc => List.take_subset e hp ((hp.take e).drop_subset 1 hc),
                  fun c hc => List.drop_subset (i + 1) hp hc⟩
          · rw [if_neg h2] at hok
            by_cases h5 : (hp.drop (e + 1)).head? = some ':'
            · rw [if_pos h5] at hok; cases hok
            · rw [if_neg h5] at hok; cases hok
    · rw [if_neg hb] at hok
      by_cases h6 : (cutFirst ':' (hp.take i)).isSome = true
      · rw [if_pos h6] at hok; cases hok
      · rw [if_neg h6] at hok
        by_cases h7 : (cutFirst '[' hp).isSome = true
        · rw [if_pos h7] at hok; cases hok
        · rw [if_neg h7] at hok
          by_cases h8 : (cutFirst ']' hp).isSome = true
          · rw [if_pos h8] at hok; cases hok
          · rw [if_neg h8] at hok
            cases hok
            exact ⟨fun c hc => List.take_subset i hp hc,
              fun c hc => List.drop_subset (i + 1) hp hc⟩

theorem urlParseL_hostOnly (A : List Char) (u : GoURL)
    (hA1 : '/' ∉ A) (hA2 : '#' ∉ A) (hA3 : '?' ∉ A)
    (h : urlParseL (['h', 't', 't', 'p', ':', '/', '/'] ++ (A ++ ['/'])) = .ok u) :
    u.path = "/" := by
  have hno_hash : '#' ∉ (['h', 't', 't', 'p', ':', '/', '/'] ++ (A ++ ['/'])) := by
    intro hm
    rcases List.mem_append.mp hm with hm | hm
    · exact absurd hm (by decide)
    · rcases List.mem_append.mp hm with hm | hm
      · exact hA2 hm
      · exact absurd hm (by decide)
  obtain ⟨u0, f, h0, hf, hu⟩ := urlParseL_inv _ _ h
  subst hu
  rw [splitCut_of_notMem _ '#' hno_hash] at h0
  rcases parseNoFrag_inv _ _ h0 with ⟨hstar, hu0⟩ | ⟨sch, rest0, hg, hq⟩
  · exfalso
    have hmem : ':' ∈ (['*'] : List Char) := by
      rw [← hstar]
      exact List.mem_append_left _ (by decide)
    simp at hmem
  · have hg2 : getScheme (['h', 't', 't', 'p', ':', '/', '/'] ++ (A ++ ['/'])) =
        .ok (['h', 't', 't', 'p'], '/' :: '/' :: (A ++ ['/'])) :=
      getScheme_append 'h' ['t', 't', 'p'] ('/' :: '/' :: (A ++ ['/'])) (by decide) (by decide)
    rw [hg2] at hg
    injection hg with hg
    injection hg with hg1 hg2'
    subst hg1
    subst hg2'
    have hqc : queryCut ('/' :: '/' :: (A ++ ['/'])) =
        ('/' :: '/' :: (A ++ ['/']), [], false) := by
      apply queryCut_of_notMem
      intro hm
      simp only [List.mem_cons] at hm
      rcases hm with hm | hm | hm
      · exact absurd hm (by decide)
      · exact absurd hm (by decide)
      · rcases List.mem_append.mp hm with hm | hm
        · exact hA3 hm
        · exact absurd hm (by decide)
    simp only [hqc] at hq
    unfold afterQuery at hq
    rw [if_pos (show ('/' :: '/' :: (A ++ ['/'])).head? = some '/' from rfl)] at hq
    rw [if_pos (show (String.mk (['h', 't', 't', 'p'].map lowerAscii) ≠ "" ∨
        ¬(('/' :: '/' :: (A ++ ['/'])).take 3 = ['/', '/', '/'])) ∧
        ('/' :: '/' :: (A ++ ['/'])).take 2 = ['/', '/'] from
      ⟨Or.inl (by decide), rfl⟩)] at hq
    have hsk : splitKeep (('/' :: '/' :: (A ++ ['/'])).drop 2) '/' = (A, ['/']) := by
      show splitKeep (A ++ ['/']) '/' = (A, ['/'])
      unfold splitKeep
      rw [cutFirst_append_cons '/' A [] hA1]
    simp only [hsk] at hq
    cases ha : parseAuthority A with
    | error e => rw [ha] at hq; cases hq
    | ok pr =>
      rw [ha] at hq
      obtain ⟨us, hst⟩ := pr
      have hq3 : finishURL (String.mk (['h', 't', 't', 'p'].map lowerAscii)) us hst
          ['/'] [] false = .ok u0 := hq
      obtain ⟨-, -, hp⟩ := finishURL_inv _ _ _ _ _ _ _ hq3
      have hp2 : some (['/'] : List Char) = some u0.path.data := hp
      have hdata : u0.path.data = ['/'] := (Option.some.inj hp2).symm
      exact congrArg String.mk hdata

theorem urlParseL_host_path_shape (l : List Char) (u : GoURL) (h : urlParseL l = .ok u)
    (hh : u.host ≠ "") : u.path.data = [] ∨ u.path.data.head? = some '/' := by
  obtain ⟨u0, f, h0, hf, hu⟩ := urlParseL_inv l u h
  subst hu
  rcases parseNoFrag_inv _ _ h0 with ⟨hstar, hu0⟩ | ⟨sch, rest0, hg, hq⟩
  · subst hu0
    exact absurd rfl hh
  · have hs := afterQuery_path_shape _ _ _ _ u0 hq (Or.inl (show u0.host ≠ "" from hh))
    exact hs

theorem urlParseL_scheme_of_prefix (c : Char) (cs r : List Char) (u : GoURL)
    (hhead : isSchemeHead c = true) (hall : ∀ d ∈ c :: cs, isSchemeChar d = true)
    (h : urlParseL ((c :: cs) ++ ':' :: '/' :: '/' :: r) = .ok u) :
    u.scheme = String.mk ((c :: cs).map lowerAscii) := by
  have hnh : '#' ∉ (c :: cs) := fun hm => absurd (hall '#' hm) (by decide)
  obtain ⟨u0, f, h0, hf, hu⟩ := urlParseL_inv _ _ h
  subst hu
  have hs2 : splitCut (':' :: '/' :: '/' :: r) '#' =
      (':' :: '/' :: '/' :: (splitCut r '#').1, (splitCut r '#').2) :=
    splitCut_append '#' [':', '/', '/'] r (by decide)
  have hs1 := splitCut_append '#' (c :: cs) (':' :: '/' :: '/' :: r) hnh
  rw [hs2] at hs1
  simp only [hs1] at h0
  rcases parseNoFrag_inv _ _ h0 with ⟨hstar, hu0⟩ | ⟨sch, rest0, hg, hq⟩
  · exfalso
    have hmem : (':' : Char) ∈ ((c :: cs) ++ ':' :: '/' :: '/' :: (splitCut r '#').1) :=
      List.mem_append_right _ (List.mem_cons_self _ _)
    rw [hstar] at hmem
    simp at hmem
  · have hg2 : getScheme ((c :: cs) ++ ':' :: ('/' :: '/' :: (splitCut r '#').1)) =
        .ok (c :: cs, '/' :: '/' :: (splitCut r '#').1) :=
      getScheme_append c cs ('/' :: '/' :: (splitCut r '#').1) hall hhead
    rw [hg2] at hg
    injection hg with hg
    injection hg with hg1 hg2'
    subst hg1
    subst hg2'
    have hsch := afterQuery_scheme _ _ _ _ u0 hq
    exact hsch

theorem splitHost_subset (hp : List Char) : ∀ c, c ∈ splitHost hp → c ∈ hp := by
  unfold splitHost
  cases hg : goSplitHostPort hp with
  | error e => exact fun c hc => hc
  | ok pr =>
    obtain ⟨a, b⟩ := pr
    exact fun c hc => (goSplitHostPort_subset hp a b hg).1 c hc

theorem splitPort_subset (hp : List Char) : ∀ c, c ∈ splitPort hp → c ∈ hp := by
  unfold splitPort
  cases hg : goSplitHostPort hp with
  | error e => exact fun c hc => absurd hc (List.not_mem_nil c)
  | ok pr =>
    obtain ⟨a, b⟩ := pr
    exact fun c hc => (goSplitHostPort_subset hp a b hg).2 c hc

/-- Shared shape lemma: with a manual protocol flag, `DetectProtocol` makes
exactly one attempt and returns its outcome. -/
theorem manual_mode_shape (dispatch : String → Int → NetOutcome) (t : ParsedTarget)
    (opts : Options) (h1 : opts.proto ≠ "") (h2 : opts.proto ≠ "auto") :
    manualProbeSpec dispatch t opts := by
  unfold manualProbeSpec detectProtocol
  rw [if_pos ⟨h1, h2⟩]
  refine ⟨rfl, rfl, rfl, rfl, rfl, fun ht => ?_⟩
  unfold applyTimeouts
  rw [if_pos ht]

/-- Shared shape lemma: with the protocol flag unset or `"auto"`,
`DetectProtocol` follows the HTTP-then-HTTPS fallback contract. -/
theorem auto_mode_shape (dispatch : String → Int → NetOutcome) (t : ParsedTarget)
    (opts : Options) (h : opts.proto = "" ∨ opts.proto = "auto") :
    autoProbeSpec dispatch t opts := by
  have hc : ¬(opts.proto ≠ "" ∧ opts.proto ≠ "auto") := by
    rcases h with h | h <;> simp [h]
  unfold autoProbeSpec detectProtocol
  rw [if_neg hc]
  refine ⟨rfl, rfl, rfl, rfl, fun hcond => ?_, fun hcond => ?_⟩
  · rw [if_pos hcond]; exact ⟨rfl, rfl⟩
  · rw [if_neg hcond]; exact ⟨rfl, rfl⟩

/-- Claim C1: in auto mode (proto unset or `"auto"`) the prober first
attempts HTTP with a fixed 3-second timeout; that attempt is final iff it
has no transport-level error and a status code in `[200, 400)`; in every
other case exactly one HTTPS attempt with a fixed 7-second timeout is made
and its outcome — success or failure — is final, with no third attempt and
no reversion to the HTTP result. -/
theorem detectProtocol_auto_http_then_https (dispatch : String → Int → NetOutcome)
    (t : ParsedTarget) (opts : Options) (h : opts.proto = "" ∨ opts.proto = "auto") :
    autoProbeSpec dispatch t opts :=
  auto_mode_shape dispatch t opts h

/-- Witness for C1 at a dispatcher answering 500 on HTTP and 200 on HTTPS. -/
theorem detectProtocol_auto_http_then_https_witness :
    optsAuto.proto = "auto" ∧ autoProbeSpec dHttp500 tPlain optsAuto :=
  ⟨rfl, detectProtocol_auto_http_then_https dHttp500 tPlain optsAuto (Or.inr rfl)⟩

/-- Claim C2: with proto `"http"` or `"https"` the prober makes exactly one
attempt, using the flag's scheme (also against an endpoint whose explicit
URL scheme differs) and the caller-configured `ApplyTimeouts` timeout, and
that single attempt's outcome is the final result. -/
theorem detectProtocol_manual_single_attempt (dispatch : String → Int → NetOutcome)
    (t : ParsedTarget) (opts : Options) (h : opts.proto = "http" ∨ opts.proto = "https") :
    manualProbeSpec dispatch t opts := by
  rcases h with h | h <;>
    exact manual_mode_shape dispatch t opts (by rw [h]; decide) (by rw [h]; decide)

/-- Witness for C2: `--proto http` against an endpoint parsed from an
explicit `https://` URL. -/
theorem detectProtocol_manual_single_attempt_witness :
    optsManualHttp.proto = "http" ∧ tExplicitHttps.hasExplicitProto = true ∧
      tExplicitHttps.url.scheme = "https" ∧
      manualProbeSpec dAllOk tExplicitHttps optsManualHttp :=
  ⟨rfl, rfl, rfl,
   detectProtocol_manual_single_attempt dAllOk tExplicitHttps optsManualHttp (Or.inl rfl)⟩

/-- Counterexample to C3 as stated: an endpoint with
`hasExplicitProto = true` under the default `"auto"` proto flag still
undergoes the full HTTP-then-HTTPS auto probing (two attempts with the
fixed auto-mode timeouts). -/
theorem detectProtocol_probes_explicit_scheme_counterexample :
    tExplicitHttps.hasExplicitProto = true ∧ optsAuto.proto = "auto" ∧
      (detectProtocol dHttp500 tExplicitHttps optsAuto).attempts.map
          (fun a => (a.url.scheme, a.timeout)) =
        [("http", 3 * second), ("https", 7 * second)] := by
  refine ⟨rfl, rfl, ?_⟩
  decide

/-- Claim C3 (amended): an endpoint's `hasExplicitProto = true` does not by
itself suppress probing; probing is bypassed exactly when the proto flag is
manual.  For such endpoints, a manual proto gives the single-attempt
shape and an unset/`"auto"` proto still gives the full auto-mode
HTTP-then-HTTPS probing. -/
theorem detectProtocol_explicit_scheme_no_bypass (dispatch : String → Int → NetOutcome)
    (t : ParsedTarget) (opts : Options) (_h : t.hasExplicitProto = true) :
    ((opts.proto = "" ∨ opts.proto = "auto") → autoProbeSpec dispatch t opts) ∧
    (opts.proto ≠ "" ∧ opts.proto ≠ "auto" → manualProbeSpec dispatch t opts) :=
  ⟨fun ha => auto_mode_shape dispatch t opts ha,
   fun hm => manual_mode_shape dispatch t opts hm.1 hm.2⟩

/-- Witness for the amended C3 at an explicit-`https` endpoint in auto
mode. -/
theorem detectProtocol_explicit_scheme_no_bypass_witness :
    tExplicitHttps.hasExplicitProto = true ∧ autoProbeSpec dHttp500 tExplicitHttps optsAuto :=
  ⟨rfl,
   (detectProtocol_explicit_scheme_no_bypass dHttp500 tExplicitHttps optsAuto rfl).1
     (Or.inr rfl)⟩

/-- Claim C10: in auto mode `DetectProtocol`'s Go error is nil on every
invocation (failure is reported only through `ProbeResult.Error`), while in
manual mode the Go error equals `ProbeResult.Error`. -/
theorem detectProtocol_goErr_contract (dispatch : String → Int → NetOutcome)
    (t : ParsedTarget) (opts : Options) :
    ((opts.proto = "" ∨ opts.proto = "auto") →
      (detectProtocol dispatch t opts).goErr = none) ∧
    (opts.proto ≠ "" ∧ opts.proto ≠ "auto" →
      (detectProtocol dispatch t opts).goErr = (detectProtocol dispatch t opts).result.error) := by
  constructor
  · intro h
    have hc : ¬(opts.proto ≠ "" ∧ opts.proto ≠ "auto") := by
      rcases h with h | h <;> simp [h]
    unfold detectProtocol
    rw [if_neg hc]
    split <;> rfl
  · intro hm
    unfold detectProtocol
    rw [if_pos hm]

/-- Witness for C10: both probes fail in auto mode (Go error still nil) and
a manual HTTPS probe fails (Go error equals the result error). -/
theorem detectProtocol_goErr_contract_witness :
    (detectProtocol dAllRefused tPlain optsNoProto).goErr = none ∧
    (detectProtocol dAllRefused tPlain optsManualHttps).goErr =
      (detectProtocol dAllRefused tPlain optsManualHttps).result.error :=
  ⟨(detectProtocol_goErr_contract dAllRefused tPlain optsNoProto).1 (Or.inl rfl),
   (detectProtocol_goErr_contract dAllRefused tPlain optsManualHttps).2
     ⟨by decide, by decide⟩⟩

/-- Claim C4 evaluated at a failing input: a non-timeout error whose text
contains `"no such host"` and not `"connection refused"` is classified as a
connection error, not `NoRouteError`, because `protocol.contains` compares
only lengths (its doc comment claims a substring test): any error text of at
least 18 bytes matches `"connection refused"` first. -/
theorem mapProbeError_no_such_host_misclassified :
    (⟨false, "dial tcp: lookup example.com: no such host"⟩ : GoNetError).isTimeout = false ∧
    containsGo "dial tcp: lookup example.com: no such host" "connection refused" = true ∧
    mapProbeError (some ⟨false, "dial tcp: lookup example.com: no such host"⟩) (some tPlain) =
      some (.connectionError "example.com" ""
        "dial tcp: lookup example.com: no such host") := by
  refine ⟨rfl, by decide, by decide⟩

/-- Claim C9 evaluated at a failing input: in auto mode with the HTTP probe
answering 404 on handle 1, HTTPS answering 200 on handle 2, and the real
request using handle 3, the whole invocation's event trace acquires handle
1 but never closes it (only the real request's handle 3 is released — the
probe path of src/unnamed/part_002 contains no `Close` call). -/
theorem probe_response_body_never_closed :
    run dHttp404 (NetOutcome.response 200 3) optsAuto =
      (0, [.acquire 1, .acquire 2, .acquire 3, .close 3]) ∧
    1 ∈ acquiredHandles (run dHttp404 (NetOutcome.response 200 3) optsAuto).2 ∧
    1 ∉ closedHandles (run dHttp404 (NetOutcome.response 200 3) optsAuto).2 := by
  refine ⟨by decide, by decide, by decide⟩

/-- Claim C7: for every oracle, options and endpoint, a successfully built
transport skips certificate verification iff `--insecure` is set or the
endpoint is an IP literal without `--strict-ssl`; in particular for an IP
literal without `--insecure` the decision is the negation of
`--strict-ssl`, and `--insecure` forces it regardless of the rest. -/
theorem newTransport_skip_verification (sys : SysOracle) (opts : Options)
    (t : ParsedTarget) (tr : TransportModel) (h : newTransport sys opts t = .ok tr) :
    tr.tlsClientConfig.insecureSkipVerify = (opts.insecure || (t.isIP && !opts.strictSSL)) ∧
    (t.isIP = true → opts.insecure = false →
      tr.tlsClientConfig.insecureSkipVerify = !opts.strictSSL) ∧
    (opts.insecure = true → tr.tlsClientConfig.insecureSkipVerify = true) := by
  have hskip : tr.tlsClientConfig.insecureSkipVerify = skipVerify opts t := by
    unfold newTransport at h
    cases hca : caStep sys opts t.url.host with
    | error e => rw [hca] at h; exact absurd h (by simp)
    | ok roots =>
      rw [hca] at h
      cases hcert : certStep sys opts t.url.host with
      | error e => rw [hcert] at h; exact absurd h (by simp)
      | ok certs =>
        rw [hcert] at h
        cases h
        rfl
  rw [hskip]
  unfold skipVerify
  cases t.isIP <;> cases opts.insecure <;> cases opts.strictSSL <;> simp

/-- Witness for C7 at an IP-literal endpoint with all-default flags. -/
theorem newTransport_skip_verification_witness :
    newTransport sysOk { } tIP = Except.ok trIP ∧
    trIP.tlsClientConfig.insecureSkipVerify =
      (({ } : Options).insecure || (tIP.isIP && !(({ } : Options).strictSSL))) :=
  ⟨rfl, (newTransport_skip_verification sysOk { } tIP trIP rfl).1⟩

/-- Value of `caStep` when reading the CA file fails. -/
theorem caStep_readFail (sys : SysOracle) (opts : Options) (host : String) (m : String)
    (h1 : opts.caCert ≠ "") (h2 : sys.readFile opts.caCert = .error m) :
    caStep sys opts host =
      .error (.tlsError host ("failed to read CA certificate: " ++ m)) := by
  unfold caStep
  rw [if_pos h1, h2]

/-- Value of `caStep` when the CA file reads but does not parse. -/
theorem caStep_parseFail (sys : SysOracle) (opts : Options) (host : String) (c : String)
    (h1 : opts.caCert ≠ "") (h2 : sys.readFile opts.caCert = .ok c)
    (h3 : sys.appendCertsFromPEM c = false) :
    caStep sys opts host = .error (.tlsError host "failed to parse CA certificate") := by
  unfold caStep
  simp only [if_pos h1, h2, h3]
  rfl

/-- Value of `certStep` when only `--cert` is set. -/
theorem certStep_certOnly (sys : SysOracle) (opts : Options) (host : String)
    (hc : opts.cert ≠ "") (hk : opts.key = "") :
    certStep sys opts host =
      .error (.tlsError host "--cert requires --key to be specified") := by
  unfold certStep
  rw [if_neg (by simp [hk]), if_pos hc]

/-- Value of `certStep` when only `--key` is set. -/
theorem certStep_keyOnly (sys : SysOracle) (opts : Options) (host : String)
    (hc : opts.cert = "") (hk : opts.key ≠ "") :
    certStep sys opts host =
      .error (.tlsError host "--key requires --cert to be specified") := by
  unfold certStep
  rw [if_neg (by simp [hc]), if_neg (by simp [hc]), if_pos hk]

/-- Value of `certStep` when both of `--cert`/`--key` are set and load. -/
theorem certStep_both (sys : SysOracle) (opts : Options) (host : String) (kp : KeyPair)
    (hc : opts.cert ≠ "") (hk : opts.key ≠ "")
    (hl : sys.loadX509KeyPair opts.cert opts.key = .ok kp) :
    certStep sys opts host = .ok [kp] := by
  unfold certStep
  rw [if_pos ⟨hc, hk⟩, hl]

/-- Every error `caStep` produces is a `TLSError`. -/
theorem caStep_error_tls (sys : SysOracle) (opts : Options) (host : String)
    (e : PurlError) (h : caStep sys opts host = .error e) :
    isTLSErr (Except.error e) = true := by
  unfold caStep at h
  by_cases hca : opts.caCert ≠ ""
  · rw [if_pos hca] at h
    cases hr : sys.readFile opts.caCert with
    | error m => rw [hr] at h; cases h; rfl
    | ok content =>
      rw [hr] at h
      have h2 : (if sys.appendCertsFromPEM content = true then
            (Except.ok (some content) : Except PurlError (Option String))
          else Except.error (PurlError.tlsError host "failed to parse CA certificate")) =
          Except.error e := h
      by_cases hb : sys.appendCertsFromPEM content = true
      · rw [if_pos hb] at h2; cases h2
      · rw [if_neg hb] at h2; cases h2; rfl
  · rw [if_neg hca] at h; cases h

/-- Claim C8: with `--cacert` set, a failure to read or parse the CA file
makes transport construction fail with a `TLSError` whatever the other
flags (hence independently of the skip-verification decision); exactly one
of `--cert`/`--key` is a `TLSError`; both set and loadable are presented
as the client certificate list. -/
theorem newTransport_tls_material_contract (sys : SysOracle) (opts : Options)
    (t : ParsedTarget) :
    (opts.caCert ≠ "" → (∃ m, sys.readFile opts.caCert = .error m) →
      isTLSErr (newTransport sys opts t) = true) ∧
    (opts.caCert ≠ "" →
      (∀ c, sys.readFile opts.caCert = .ok c → sys.appendCertsFromPEM c = false) →
      isTLSErr (newTransport sys opts t) = true) ∧
    (opts.cert ≠ "" → opts.key = "" → isTLSErr (newTransport sys opts t) = true) ∧
    (opts.cert = "" → opts.key ≠ "" → isTLSErr (newTransport sys opts t) = true) ∧
    (∀ kp tr, opts.cert ≠ "" → opts.key ≠ "" →
      sys.loadX509KeyPair opts.cert opts.key = .ok kp →
      newTransport sys opts t = .ok tr → tr.tlsClientConfig.certificates = [kp]) := by
  refine ⟨?_, ?_, ?_, ?_, ?_⟩
  · rintro hca ⟨m, hm⟩
    unfold newTransport
    rw [caStep_readFail sys opts t.url.host m hca hm]
    rfl
  · intro hca hpem
    unfold newTransport
    cases hr : sys.readFile opts.caCert with
    | error m => rw [caStep_readFail sys opts t.url.host m hca hr]; rfl
    | ok content =>
      rw [caStep_parseFail sys opts t.url.host content hca hr (hpem content hr)]
      rfl
  · intro hc hk
    unfold newTransport
    cases hca : caStep sys opts t.url.host with
    | error e => exact caStep_error_tls sys opts t.url.host e hca
    | ok roots =>
      rw [certStep_certOnly sys opts t.url.host hc hk]
      rfl
  · intro hc hk
    unfold newTransport
    cases hca : caStep sys opts t.url.host with
    | error e => exact caStep_error_tls sys opts t.url.host e hca
    | ok roots =>
      rw [certStep_keyOnly sys opts t.url.host hc hk]
      rfl
  · intro kp tr hc hk hload htr
    unfold newTransport at htr
    cases hca : caStep sys opts t.url.host with
    | error e => rw [hca] at htr; cases htr
    | ok roots =>
      rw [hca, certStep_both sys opts t.url.host kp hc hk hload] at htr
      cases htr
      rfl

/-- Witness for C8: an unreadable CA file fails even with `--insecure` set,
a lone `--cert` fails, and a loadable cert/key pair lands in the
certificate list. -/
theorem newTransport_tls_material_contract_witness :
    isTLSErr (newTransport sysReadFail
      { target := "example.com", caCert := "ca.pem", insecure := true } tPlain) = true ∧
    isTLSErr (newTransport sysOk optsCertOnly tPlain) = true ∧
    newTransport sysOk optsMTLS tPlain = Except.ok trMTLS ∧
    trMTLS.tlsClientConfig.certificates = [⟨"c.pem", "k.pem"⟩] :=
  ⟨(newTransport_tls_material_contract sysReadFail
      { target := "example.com", caCert := "ca.pem", insecure := true } tPlain).1
      (by decide) ⟨"no such file or directory", rfl⟩,
   (newTransport_tls_material_contract sysOk optsCertOnly tPlain).2.2.1 (by decide) rfl,
   rfl,
   (newTransport_tls_material_contract sysOk optsMTLS tPlain).2.2.2.2
     ⟨"c.pem", "k.pem"⟩ trMTLS (by decide) (by decide) rfl rfl⟩

/-- Every accepted input containing `://` yields `hasExplicitProto = true`. -/
theorem parseTarget_explicit_flag (input : String) (t : ParsedTarget)
    (h : parseTarget input = .ok t) (hc : containsColonSlashSlash input.data = true) :
    t.hasExplicitProto = true := by
  unfold parseTarget at h
  by_cases h0 : input = ""
  · rw [if_pos h0] at h; cases h
  · rw [if_neg h0] at h
    rw [if_pos hc] at h
    cases hu : urlParse input with
    | error e => simp only [hu] at h; cases h
    | ok u =>
      simp only [hu] at h
      by_cases h2 : u.host = ""
      · rw [if_pos h2] at h; cases h
      · rw [if_neg h2] at h
        cases h
        rfl

/-- Counterexample to C5 as stated: the accepted input `HTTP://example.com`
has literal scheme `HTTP`, but the endpoint's URL scheme is the lower-cased
`http` — the scheme's character case is not preserved (Go `url.Parse`
lower-cases it). -/
theorem parseTarget_scheme_case_counterexample :
    (parseTarget "HTTP://example.com").toOption.map
        (fun t => (t.hasExplicitProto, t.url.scheme)) = some (true, "http") ∧
      ("http" : String) ≠ "HTTP" := by
  refine ⟨by decide, by decide⟩

/-- Claim C5 (amended): every accepted input containing `://` yields
`scheme_explicit = true`; and for an accepted input that begins with a
syntactically valid scheme literal followed by `://`, the endpoint's URL
scheme is that literal ASCII-lower-cased (not preserved case-for-case). -/
theorem parseTarget_explicit_scheme_contract :
    (∀ input t, parseTarget input = .ok t → containsColonSlashSlash input.data = true →
      t.hasExplicitProto = true) ∧
    (∀ c cs r t, isSchemeHead c = true → (∀ d ∈ c :: cs, isSchemeChar d = true) →
      parseTarget (String.mk ((c :: cs) ++ ':' :: '/' :: '/' :: r)) = .ok t →
      t.hasExplicitProto = true ∧ t.url.scheme = String.mk ((c :: cs).map lowerAscii)) := by
  refine ⟨parseTarget_explicit_flag, ?_⟩
  intro c cs r t hhead hall h
  have hc : containsColonSlashSlash
      (String.mk ((c :: cs) ++ ':' :: '/' :: '/' :: r)).data = true :=
    containsCSS_append (c :: cs) r
  refine ⟨parseTarget_explicit_flag _ _ h hc, ?_⟩
  unfold parseTarget at h
  by_cases h0 : String.mk ((c :: cs) ++ ':' :: '/' :: '/' :: r) = ""
  · rw [if_pos h0] at h; cases h
  · rw [if_neg h0] at h
    rw [if_pos hc] at h
    cases hu : urlParse (String.mk ((c :: cs) ++ ':' :: '/' :: '/' :: r)) with
    | error e => simp only [hu] at h; cases h
    | ok u =>
      simp only [hu] at h
      by_cases h2 : u.host = ""
      · rw [if_pos h2] at h; cases h
      · rw [if_neg h2] at h
        cases h
        exact urlParseL_scheme_of_prefix c cs r u hhead hall hu

/-- Witness for the amended C5 at the input `HTTP://example.com`. -/
theorem parseTarget_explicit_scheme_contract_witness :
    parseTarget "HTTP://example.com" = Except.ok tUpperScheme ∧
    tUpperScheme.hasExplicitProto = true ∧
    tUpperScheme.url.scheme = String.mk (['H', 'T', 'T', 'P'].map lowerAscii) :=
  ⟨rfl,
   (parseTarget_explicit_scheme_contract.2 'H' ['T', 'T', 'P'] "example.com".data
     tUpperScheme (by decide) (by decide) rfl).1,
   (parseTarget_explicit_scheme_contract.2 'H' ['T', 'T', 'P'] "example.com".data
     tUpperScheme (by decide) (by decide) rfl).2⟩

/-- Counterexample to C6 as stated: `http://example.com` is accepted and its
endpoint's path is the empty string — neither non-empty nor `/`. -/
theorem parseTarget_empty_path_counterexample :
    (parseTarget "http://example.com").toOption.map (fun t => t.url.path) = some "" := by
  decide

/-- Claim C6 (amended): every accepted endpoint's path is empty or starts
with `/`; and every accepted scheme-less input containing none of `/`, `#`,
`?` gets the default path `/` exactly.  (An explicit-scheme input without a
path segment yields the empty path, not `/`.) -/
theorem parseTarget_path_contract :
    (∀ input t, parseTarget input = .ok t →
      t.url.path.data = [] ∨ t.url.path.data.head? = some '/') ∧
    (∀ input t, parseTarget input = .ok t → '/' ∉ input.data → '#' ∉ input.data →
      '?' ∉ input.data → t.url.path = "/") := by
  constructor
  · intro input t h
    unfold parseTarget at h
    by_cases h0 : input = ""
    · rw [if_pos h0] at h; cases h
    · rw [if_neg h0] at h
      by_cases h1 : containsColonSlashSlash input.data = true
      · rw [if_pos h1] at h
        cases hu : urlParse input with
        | error e => simp only [hu] at h; cases h
        | ok u =>
          simp only [hu] at h
          by_cases h2 : u.host = ""
          · rw [if_pos h2] at h; cases h
          · rw [if_neg h2] at h
            cases h
            exact urlParseL_host_path_shape input.data u hu h2
      · rw [if_neg h1] at h
        by_cases hH : splitHost (hostPortOf input.data) = []
        · rw [if_pos hH] at h; cases h
        · rw [if_neg hH] at h
          cases hu : urlParseL (rawURLOf input.data) with
          | error e => simp only [hu] at h; cases h
          | ok u =>
            simp only [hu] at h
            cases h
            exact urlParseL_http_shape
              (splitHost (hostPortOf input.data) ++
                (if splitPort (hostPortOf input.data) ≠ [] then
                  ':' :: splitPort (hostPortOf input.data) else []) ++
                pathOf input.data) u hu
  · intro input t h hs hh hq
    have hcss : containsColonSlashSlash input.data = false :=
      containsCSS_false_of_no_slash input.data hs
    have hhp : hostPortOf input.data = input.data := by
      unfold hostPortOf
      rw [cutFirst_eq_none '/' input.data hs]
    have hpath : pathOf input.data = ['/'] := by
      unfold pathOf
      rw [cutFirst_eq_none '/' input.data hs]
    unfold parseTarget at h
    by_cases h0 : input = ""
    · rw [if_pos h0] at h; cases h
    · rw [if_neg h0] at h
      rw [if_neg (by simp [hcss])] at h
      by_cases hH : splitHost (hostPortOf input.data) = []
      · rw [if_pos hH] at h; cases h
      · rw [if_neg hH] at h
        cases hu : urlParseL (rawURLOf input.data) with
        | error e => simp only [hu] at h; cases h
        | ok u =>
          simp only [hu] at h
          cases h
          unfold rawURLOf at hu
          rw [hpath] at hu
          have hA1 : '/' ∉ (splitHost (hostPortOf input.data) ++
              (if splitPort (hostPortOf input.data) ≠ [] then
                ':' :: splitPort (hostPortOf input.data) else [])) := by
            intro hm
            rcases List.mem_append.mp hm with hm | hm
            · exact hs (hhp ▸ splitHost_subset (hostPortOf input.data) '/' hm)
            · revert hm
              split
              · intro hm
                rcases List.mem_cons.mp hm with hm | hm
                · exact absurd hm (by decide)
                · exact hs (hhp ▸ splitPort_subset (hostPortOf input.data) '/' hm)
              · intro hm
                exact absurd hm (List.not_mem_nil '/')
          have hA2 : '#' ∉ (splitHost (hostPortOf input.data) ++
              (if splitPort (hostPortOf input.data) ≠ [] then
                ':' :: splitPort (hostPortOf input.data) else [])) := by
            intro hm
            rcases List.mem_append.mp hm with hm | hm
            · exact hh (hhp ▸ splitHost_subset (hostPortOf input.data) '#' hm)
            · revert hm
              split
              · intro hm
                rcases List.mem_cons.mp hm with hm | hm
                · exact absurd hm (by decide)
                · exact hh (hhp ▸ splitPort_subset (hostPortOf input.data) '#' hm)
              · intro hm
                exact absurd hm (List.not_mem_nil '#')
          have hA3 : '?' ∉ (splitHost (hostPortOf input.data) ++
              (if splitPort (hostPortOf input.data) ≠ [] then
                ':' :: splitPort (hostPortOf input.data) else [])) := by
            intro hm
            rcases List.mem_append.mp hm with hm | hm
            · exact hq (hhp ▸ splitHost_subset (hostPortOf input.data) '?' hm)
            · revert hm
              split
              · intro hm
                rcases List.mem_cons.mp hm with hm | hm
                · exact absurd hm (by decide)
                · exact hq (hhp ▸ splitPort_subset (hostPortOf input.data) '?' hm)
              · intro hm
                exact absurd hm (List.not_mem_nil '?')
          exact urlParseL_hostOnly
            (splitHost (hostPortOf input.data) ++
              (if splitPort (hostPortOf input.data) ≠ [] then
                ':' :: splitPort (hostPortOf input.data) else [])) u hA1 hA2 hA3 hu

/-- Witness for the amended C6: an explicit-scheme input without a path
segment (empty path, hitting the left disjunct) and a bare host input
(default `/`). -/
theorem parseTarget_path_contract_witness :
    parseTarget "http://example.com" = Except.ok tHttpNoPath ∧
    (tHttpNoPath.url.path.data = [] ∨ tHttpNoPath.url.path.data.head? = some '/') ∧
    parseTarget "example.com" = Except.ok tBare ∧ tBare.url.path = "/" :=
  ⟨rfl,
   parseTarget_path_contract.1 "http://example.com" tHttpNoPath rfl,
   rfl,
   parseTarget_path_contract.2 "example.com" tBare rfl (by decide) (by decide)
     (by decide)⟩

end Purl
